import Mathlib

/-!
Verification of the cert-issuer transaction pipeline.

Shallow embedding of the repository's Python sources:
  * `src/cert_issuer/trx_utils.py`  — fee model, transaction builder, signing, broadcast
  * `src/cert_issuer/issuer.py`     — issuance orchestrator
  * `src/cert_issuer/helpers.py`    — air-gap (internet off) scope wrapper
  * `src/issuer/connectors.py`      — wallet connector and broadcaster factories

Python numbers are modelled as exact rationals (`ℚ`) for monetary values and
integers (`ℤ`) for counts; fallible code returns `Except`; the side-effecting
orchestrator and the air-gap wrapper are modelled by explicit event traces /
write lists.
-/

/-! ## Constants (trx_utils.py lines 17-20) -/

/-- `COIN = 100000000`, satoshis in 1 btc. -/
def COIN : ℚ := 100000000

/-- Assumed bytes per transaction input (compressed public key). -/
def BYTES_PER_INPUT : ℤ := 148

/-- Bytes per transaction output. -/
def BYTES_PER_OUTPUT : ℤ := 34

/-- Fixed extra bytes of a transaction. -/
def FIXED_EXTRA_BYTES : ℤ := 10

/-! ## Cost model (trx_utils.py lines 115-174) -/

/-- `calculate_raw_tx_size` (trx_utils.py lines 158-174):
`(num_inputs * BYTES_PER_INPUT) + (num_outputs * BYTES_PER_OUTPUT) + FIXED_EXTRA_BYTES + num_inputs`. -/
def calculate_raw_tx_size (num_inputs num_outputs : ℤ) : ℤ :=
  (num_inputs * BYTES_PER_INPUT) + (num_outputs * BYTES_PER_OUTPUT) + FIXED_EXTRA_BYTES + num_inputs

/-- `calculate_txfee` (trx_utils.py lines 137-155):
`tx_fee = satoshi_per_byte * tx_size`, returning `max(tx_fee, default_fee)`. -/
def calculate_txfee (satoshi_per_byte : ℚ) (num_inputs num_outputs : ℤ) (default_fee : ℚ) : ℚ :=
  let tx_size := calculate_raw_tx_size num_inputs num_outputs
  let tx_fee := satoshi_per_byte * (tx_size : ℚ)
  max tx_fee default_fee

/-- `calculate_total` (trx_utils.py lines 126-134): `min_per_output * num_outputs + txfee`. -/
def calculate_total (min_per_output : ℚ) (num_outputs : ℤ) (txfee : ℚ) : ℚ :=
  min_per_output * (num_outputs : ℚ) + txfee

/-- Cost record; its three fields are those of the `TransactionCosts` constructor
call in `get_cost` (trx_utils.py line 123): `TransactionCosts(min_per_output, fee=txfee, total=total)`. -/
structure TransactionCosts where
  min_per_output : ℚ
  fee : ℚ
  total : ℚ
deriving DecidableEq, Repr

/-- `get_cost` (trx_utils.py lines 115-123): converts whole-coin parameters to
satoshis by multiplying with `COIN`, computes the tx fee assuming 1 input, and
totals the per-output minimums plus the fee. -/
def get_cost (recommended_fee_per_transaction dust_threshold satoshi_per_byte : ℚ)
    (num_outputs : ℤ) : TransactionCosts :=
  let recommended_fee := recommended_fee_per_transaction * COIN
  let min_per_output := dust_threshold * COIN
  let txfee := calculate_txfee satoshi_per_byte 1 num_outputs recommended_fee
  let total := calculate_total min_per_output num_outputs txfee
  ⟨min_per_output, txfee, total⟩

/-! ## Transaction builder data model (trx_utils.py lines 23-64) -/

/-- Output script: either a standard pay-to-address script
(`CBitcoinAddress(address).to_scriptPubKey()`) or an `OP_RETURN` commitment
script (`CScript([OP_RETURN, op_return_val])`) with an opaque byte payload. -/
inductive Script where
  | payToAddress (address : String)
  | opReturn (payload : List Nat)
deriving DecidableEq, Repr

/-- Returns `true` exactly on `OP_RETURN` commitment scripts. -/
def Script.isOpReturn : Script → Bool
  | .opReturn _ => true
  | .payToAddress _ => false

/-- `CMutableTxOut(nValue, scriptPubKey)`. -/
structure CMutableTxOut where
  nValue : ℚ
  scriptPubKey : Script
deriving DecidableEq, Repr

/-- An outpoint: previous transaction id plus output index. -/
structure OutPoint where
  txid : List Nat
  index : Nat
deriving DecidableEq, Repr

/-- `CTxIn(outpoint)`. -/
structure CTxIn where
  prevout : OutPoint
deriving DecidableEq, Repr

/-- The funding input handed to the builder: `tx_input.outpoint` and
`tx_input.amount` are the two attributes `create_trx` reads. -/
structure TxInput where
  outpoint : OutPoint
  amount : ℚ
deriving DecidableEq, Repr

/-- `CMutableTransaction(txins, txouts)`. -/
structure CMutableTransaction where
  vin : List CTxIn
  vout : List CMutableTxOut
deriving DecidableEq, Repr

/-- `create_transaction_output` (trx_utils.py lines 55-64):
`CMutableTxOut(transaction_fee, CBitcoinAddress(address).to_scriptPubKey())`. -/
def create_transaction_output (address : String) (transaction_fee : ℚ) : CMutableTxOut :=
  ⟨transaction_fee, Script.payToAddress address⟩

/-- `create_trx` (trx_utils.py lines 23-36): builds the OP_RETURN output, one
input from `tx_input.outpoint`, appends a change output back to
`issuing_address` only when `value_in - issuing_transaction_cost.total > 0`,
then appends the OP_RETURN output last. -/
def create_trx (op_return_val : List Nat) (issuing_transaction_cost : TransactionCosts)
    (issuing_address : String) (txouts : List CMutableTxOut) (tx_input : TxInput) :
    CMutableTransaction :=
  let cert_out : CMutableTxOut := ⟨0, Script.opReturn op_return_val⟩
  let txins := [CTxIn.mk tx_input.outpoint]
  let value_in := tx_input.amount
  let amount := value_in - issuing_transaction_cost.total
  let txouts1 := if amount > 0 then
      txouts ++ [create_transaction_output issuing_address amount]
    else txouts
  let txouts2 := txouts1 ++ [cert_out]
  ⟨txins, txouts2⟩

/-- `create_recipient_outputs` (trx_utils.py lines 39-52): one output to the
recipient and one to the revocation address, both valued `transaction_fee`. -/
def create_recipient_outputs (recipient_address revocation_address : String)
    (transaction_fee : ℚ) : List CMutableTxOut :=
  let recipient_out := create_transaction_output recipient_address transaction_fee
  let revoke_out := create_transaction_output revocation_address transaction_fee
  [recipient_out] ++ [revoke_out]

/-! ## Issuer (issuer.py) -/

/-- `OUTPUTS_PER_CERTIFICATE = 2` (issuer.py line 7). -/
def OUTPUTS_PER_CERTIFICATE : ℤ := 2

namespace Issuer

/-- `Issuer.get_num_outputs` (issuer.py lines 15-19):
`OUTPUTS_PER_CERTIFICATE * num_certificates + 2`, the 2 extra being worst-case
outputs for OP_RETURN and change. -/
def get_num_outputs (num_certificates : ℤ) : ℤ :=
  OUTPUTS_PER_CERTIFICATE * num_certificates + 2

end Issuer

/-- The outputs of `outs` that pay `address` — the shape of the change outputs
`create_trx` appends via `create_transaction_output(issuing_address, amount)`. -/
def change_outputs_for (address : String) (outs : List CMutableTxOut) : List CMutableTxOut :=
  outs.filter (fun o => decide (o.scriptPubKey = Script.payToAddress address))

/-- The `OP_RETURN` commitment outputs of `outs`. -/
def commitment_outputs (outs : List CMutableTxOut) : List CMutableTxOut :=
  outs.filter (fun o => o.scriptPubKey.isOpReturn)

/-! ## Broadcast and the orchestrator's sent-file persistence
(trx_utils.py lines 98-112, issuer.py lines 63-66, connectors.py lines 173-175) -/

/-- Log level of the message `send_tx` emits. -/
inductive LogLevel where
  | info
  | warning
deriving DecidableEq, Repr

/-- `send_tx` (trx_utils.py lines 98-112): calls the broadcaster, logs at info
level when a txid came back and at warning level otherwise, and returns the
txid unchanged. -/
def send_tx (broadcaster : String → Option String) (hextx : String) :
    Option String × LogLevel :=
  let txid := broadcaster hextx
  match txid with
  | some t => (some t, LogLevel.info)
  | none => (none, LogLevel.warning)

/-- `noop_broadcast` (connectors.py lines 173-175): logs a warning and returns
`None`. -/
def noop_broadcast : String → Option String := fun _ => none

/-- Python runtime errors relevant here. -/
inductive PyError where
  | typeError
deriving DecidableEq, Repr

/-- Python `bytes(x, 'utf-8')` applied to an optional string: encodes a
string, raises `TypeError` on `None`. -/
def py_bytes_utf8 : Option String → Except PyError String
  | some s => Except.ok s
  | none => Except.error PyError.typeError

/-- The sent-txid persistence step of `Issuer.issue_on_blockchain` (issuer.py
lines 63-66): `txid = trx_utils.send_tx(broadcast_function, signed_hextx)`
followed unconditionally by writing `bytes(txid, 'utf-8')` to
`td.sent_tx_file_name`. Returns the file write performed (name, contents), or
the raised error. -/
def record_sent_tx (broadcast_function : String → Option String)
    (signed_hextx sent_tx_file_name : String) :
    Except PyError (String × String) := do
  let (txid, _) := send_tx broadcast_function signed_hextx
  let contents ← py_bytes_utf8 txid
  return (sent_tx_file_name, contents)

/-! ## Air-gap enforcement around signing
(helpers.py lines 23-36 and 61-91, trx_utils.py lines 67-95, issuer.py lines 54-56) -/

/-- Observable events of one signing invocation. -/
inductive SigEvent where
  | verifyInternetOffAndKeyPresent
  | skipCheckWarning
  | readPrivateKey
  | signTransaction
  | verifyInternetOnAndKeyAbsent
deriving DecidableEq, Repr

/-- `check_internet_off` (helpers.py lines 61-75): when `skip_wifi_check` is
configured it only logs a warning; otherwise it blocks until the internet is
verified off and the key file (USB) verified present. -/
def check_internet_off_trace (skip_wifi_check : Bool) : List SigEvent :=
  if skip_wifi_check then [SigEvent.skipCheckWarning]
  else [SigEvent.verifyInternetOffAndKeyPresent]

/-- `check_internet_on` (helpers.py lines 78-91): when `skip_wifi_check` is
configured it only logs a warning; otherwise it blocks until the internet is
verified back on and the key file verified absent. -/
def check_internet_on_trace (skip_wifi_check : Bool) : List SigEvent :=
  if skip_wifi_check then [SigEvent.skipCheckWarning]
  else [SigEvent.verifyInternetOnAndKeyAbsent]

/-- The body of `sign_tx` (trx_utils.py lines 76-95): reads the private key via
`helpers.import_key()` and then signs. -/
def sign_tx_body_trace : List SigEvent := [SigEvent.readPrivateKey, SigEvent.signTransaction]

/-- `internet_off_for_scope` (helpers.py lines 23-36) applied to a function
body: `check_internet_off()`, then the body, then `check_internet_on()`. -/
def internet_off_for_scope (skip_wifi_check : Bool) (body : List SigEvent) : List SigEvent :=
  check_internet_off_trace skip_wifi_check ++ body ++ check_internet_on_trace skip_wifi_check

/-- `sign_tx` as defined (trx_utils.py line 67): the `@internet_off_for_scope`
decorator is attached to the Signer itself, so the Signer's own trace already
contains the connectivity checks. -/
def sign_tx_trace (skip_wifi_check : Bool) : List SigEvent :=
  internet_off_for_scope skip_wifi_check sign_tx_body_trace

/-- The signing step of `Issuer.issue_on_blockchain` (issuer.py lines 54-56):
the Orchestrator invokes `trx_utils.sign_tx` directly, contributing nothing
beyond the Signer's own trace. -/
def orchestrator_sign_step_trace (skip_wifi_check : Bool) : List SigEvent :=
  sign_tx_trace skip_wifi_check

/-- The check events the Orchestrator itself emits around its call to the
Signer (issuer.py lines 54-56): none. -/
def orchestrator_own_check_events : List SigEvent := []

/-! ## Connector and broadcaster factories (connectors.py lines 183-205) -/

/-- The two wallet connector variants (connectors.py lines 53-149). -/
inductive WalletConnectorKind where
  | BlockchainInfoConnector
  | BitcoindConnector
deriving DecidableEq, Repr

/-- `UnrecognizedConnectorError` raised by both factories. -/
inductive ConnectorsError where
  | UnrecognizedConnectorError (msg : String)
deriving DecidableEq, Repr

/-- `create_wallet_connector` (connectors.py lines 183-191). -/
def create_wallet_connector (wallet_connector_type : String) :
    Except ConnectorsError WalletConnectorKind :=
  if wallet_connector_type = "blockchain.info" then
    Except.ok WalletConnectorKind.BlockchainInfoConnector
  else if wallet_connector_type = "bitcoind" then
    Except.ok WalletConnectorKind.BitcoindConnector
  else
    Except.error (ConnectorsError.UnrecognizedConnectorError
      ("unrecognized wallet connector: " ++ wallet_connector_type))

/-- The four broadcast function variants (connectors.py lines 152-180). -/
inductive BroadcastFunction where
  | blockr_broadcast
  | insight_broadcast
  | bitcoind_broadcast
  | noop_broadcast
deriving DecidableEq, Repr

/-- `create_broadcast_function` (connectors.py lines 194-205). -/
def create_broadcast_function (broadcaster_type : String) :
    Except ConnectorsError BroadcastFunction :=
  if broadcaster_type = "btc.blockr.io" then Except.ok BroadcastFunction.blockr_broadcast
  else if broadcaster_type = "insight.bitpay.com" then Except.ok BroadcastFunction.insight_broadcast
  else if broadcaster_type = "bitcoind" then Except.ok BroadcastFunction.bitcoind_broadcast
  else if broadcaster_type = "noop" then Except.ok BroadcastFunction.noop_broadcast
  else
    Except.error (ConnectorsError.UnrecognizedConnectorError
      ("unrecognized broadcaster: " ++ broadcaster_type))

/-- A rational that is an exact integer — a whole number of indivisible
smallest units (satoshis). -/
def isIntegral (q : ℚ) : Prop := ∃ z : ℤ, q = (z : ℚ)

/-- A finite IEEE-754 binary64 value, as its exact rational value: an integer
significand of magnitude below `2 ^ 53` times a power of two. Python floats —
the type of the whole-coin parameters `dust_threshold` and
`recommended_fee_per_transaction` that reach `get_cost` (trx_utils.py lines
118-119) — are binary64. The exponent is left unbounded, which only admits
more competing values than real binary64 has and therefore strengthens every
nearest-value statement below. -/
def isDouble (q : ℚ) : Prop :=
  ∃ m e : ℤ, m.natAbs < 2 ^ 53 ∧ q = (m : ℚ) * 2 ^ e

/-- Binary64 round-to-nearest: `r` is a machine double at minimal distance
from the exact value `x`. This is the value Python stores for a decimal
literal with exact value `x`, and the value a Python float multiplication
returns when the exact product of its operands is `x`. -/
def roundsToNearest (x r : ℚ) : Prop :=
  isDouble r ∧ ∀ s : ℚ, isDouble s → |x - r| ≤ |x - s|

/-! ## Claim C1 -/

/-- C1: the estimated fee equals `max(r * (ni * 148 + no * 34 + 10 + ni), f)`
for every input count `ni`, output count `no`, fee rate `r` and floor `f`; in
particular for 1 input and 4 outputs the modelled raw size is 295 bytes and the
fee is `max(r * 295, f)`. -/
theorem C1_fee_formula (ni no : ℤ) (r f : ℚ) :
    calculate_txfee r ni no f = max (r * ((ni * 148 + no * 34 + 10 + ni : ℤ) : ℚ)) f ∧
    calculate_raw_tx_size 1 4 = 295 ∧
    calculate_txfee r 1 4 f = max (r * 295) f := by
  refine ⟨?_, by norm_num [calculate_raw_tx_size, BYTES_PER_INPUT, BYTES_PER_OUTPUT,
    FIXED_EXTRA_BYTES], ?_⟩
  · simp only [calculate_txfee, calculate_raw_tx_size, BYTES_PER_INPUT, BYTES_PER_OUTPUT,
      FIXED_EXTRA_BYTES]
  · norm_num [calculate_txfee, calculate_raw_tx_size, BYTES_PER_INPUT, BYTES_PER_OUTPUT,
      FIXED_EXTRA_BYTES]

/-! ## Claim C9 -/

/-- C9: building recipient outputs yields exactly two outputs, the recipient
output first and the revocation output second, both valued at the configured
per-output fee. -/
theorem C9_recipient_revocation_pair (recipient_address revocation_address : String)
    (transaction_fee : ℚ) :
    create_recipient_outputs recipient_address revocation_address transaction_fee =
      [⟨transaction_fee, Script.payToAddress recipient_address⟩,
       ⟨transaction_fee, Script.payToAddress revocation_address⟩] := by
  rfl

/-- The last element of a list with an element appended is that element. -/
theorem getLast?_append_singleton {α : Type} (l : List α) (a : α) :
    (l ++ [a]).getLast? = some a := by
  rw [List.getLast?_append_cons]
  rfl

/-! ## Claim C2 -/

/-- C2: provided the caller-supplied outputs do not themselves pay the change
address, the built transaction contains exactly one change output paying the
change address exactly the remainder `fundingInput.value - totalCost.total`
when that remainder is positive, and no change output when it is zero or
negative. -/
theorem C2_change_output (op_return_val : List Nat) (issuing_transaction_cost : TransactionCosts)
    (issuing_address : String) (txouts : List CMutableTxOut) (tx_input : TxInput)
    (h : ∀ o ∈ txouts, o.scriptPubKey ≠ Script.payToAddress issuing_address) :
    (0 < tx_input.amount - issuing_transaction_cost.total →
      change_outputs_for issuing_address
        (create_trx op_return_val issuing_transaction_cost issuing_address txouts tx_input).vout =
        [create_transaction_output issuing_address
          (tx_input.amount - issuing_transaction_cost.total)]) ∧
    (tx_input.amount - issuing_transaction_cost.total ≤ 0 →
      change_outputs_for issuing_address
        (create_trx op_return_val issuing_transaction_cost issuing_address txouts tx_input).vout =
        []) := by
  have hfil : txouts.filter
      (fun o => decide (o.scriptPubKey = Script.payToAddress issuing_address)) = [] := by
    rw [List.filter_eq_nil_iff]
    intro a ha
    simp [h a ha]
  constructor
  · intro hpos
    simp only [create_trx, change_outputs_for, create_transaction_output, if_pos hpos,
      List.filter_append, hfil]
    simp
  · intro hle
    have hneg : ¬ (tx_input.amount - issuing_transaction_cost.total > 0) := not_lt.mpr hle
    simp only [create_trx, change_outputs_for, if_neg hneg, List.filter_append, hfil]
    simp

/-! ## Claim C3 -/

/-- C3: provided the caller-supplied outputs carry no OP_RETURN script, the
built transaction contains exactly one commitment (OP_RETURN) output, of value
zero, carrying the caller-supplied payload, and it is the last output. -/
theorem C3_commitment_output (op_return_val : List Nat)
    (issuing_transaction_cost : TransactionCosts) (issuing_address : String)
    (txouts : List CMutableTxOut) (tx_input : TxInput)
    (h : ∀ o ∈ txouts, o.scriptPubKey.isOpReturn = false) :
    commitment_outputs
      (create_trx op_return_val issuing_transaction_cost issuing_address txouts tx_input).vout =
      [⟨0, Script.opReturn op_return_val⟩] ∧
    (create_trx op_return_val issuing_transaction_cost issuing_address txouts
      tx_input).vout.getLast? = some ⟨0, Script.opReturn op_return_val⟩ := by
  have hfil : txouts.filter (fun o => o.scriptPubKey.isOpReturn) = [] := by
    rw [List.filter_eq_nil_iff]
    intro a ha
    simp [h a ha]
  by_cases hpos : tx_input.amount - issuing_transaction_cost.total > 0
  · constructor
    · simp only [create_trx, commitment_outputs, if_pos hpos, List.filter_append, hfil,
        create_transaction_output]
      simp [Script.isOpReturn]
    · simp only [create_trx, if_pos hpos]
      rw [getLast?_append_singleton]
  · constructor
    · simp only [create_trx, commitment_outputs, if_neg hpos, List.filter_append, hfil]
      simp [Script.isOpReturn]
    · simp only [create_trx, if_neg hpos]
      rw [getLast?_append_singleton]

/-! ## Claim C4 -/

/-- C4 (counterexample): with funding value 100 strictly below total cost 200,
the built transaction contains no change output at all — its output list is
just the OP_RETURN output — so no negative/invalid change amount appears in the
resulting transaction, contrary to the claim. -/
theorem C4_counterexample :
    (⟨⟨[], 0⟩, 100⟩ : TxInput).amount < (⟨0, 0, 200⟩ : TransactionCosts).total ∧
    change_outputs_for "change_addr"
      (create_trx [1, 2] ⟨0, 0, 200⟩ "change_addr" [] ⟨⟨[], 0⟩, 100⟩).vout = [] ∧
    (create_trx [1, 2] ⟨0, 0, 200⟩ "change_addr" [] ⟨⟨[], 0⟩, 100⟩).vout =
      [⟨0, Script.opReturn [1, 2]⟩] := by
  have hneg : ¬ ((100 : ℚ) - 200 > 0) := by norm_num
  refine ⟨by norm_num, ?_, ?_⟩
  · simp only [create_trx, change_outputs_for, if_neg hneg]
    decide
  · simp only [create_trx, if_neg hneg, List.nil_append]

/-- C4 (amended): the builder performs no funding-sufficiency check — for every
funding input whose value is below `totalCost.total` it proceeds without any
error — but instead of producing a negative change amount it omits the change
output entirely, leaving only the caller-supplied outputs followed by the
OP_RETURN output (the shortfall is silently absorbed as an invalid implicit
fee). -/
theorem C4_no_sufficiency_check (op_return_val : List Nat)
    (issuing_transaction_cost : TransactionCosts) (issuing_address : String)
    (txouts : List CMutableTxOut) (tx_input : TxInput)
    (h : tx_input.amount < issuing_transaction_cost.total) :
    create_trx op_return_val issuing_transaction_cost issuing_address txouts tx_input =
      ⟨[⟨tx_input.outpoint⟩], txouts ++ [⟨0, Script.opReturn op_return_val⟩]⟩ := by
  have hneg : ¬ (tx_input.amount - issuing_transaction_cost.total > 0) := by
    rw [gt_iff_lt, not_lt, sub_nonpos]
    exact le_of_lt h
  simp only [create_trx, if_neg hneg]

/-- C4 witness: the amended theorem applied at a concrete underfunded input. -/
theorem C4_witness :
    create_trx [7] ⟨0, 0, 50⟩ "addr" [] ⟨⟨[9], 1⟩, 20⟩ =
      ⟨[⟨⟨[9], 1⟩⟩], [⟨0, Script.opReturn [7]⟩]⟩ :=
  C4_no_sufficiency_check [7] ⟨0, 0, 50⟩ "addr" [] ⟨⟨[9], 1⟩, 20⟩ (by norm_num)

/-- C2 witness: a concrete surplus build yields exactly the change output of
the remainder. -/
theorem C2_witness :
    change_outputs_for "chg"
      (create_trx [0] ⟨0, 0, 200⟩ "chg" [⟨5, Script.payToAddress "rcpt"⟩] ⟨⟨[], 0⟩, 300⟩).vout =
      [create_transaction_output "chg"
        ((⟨⟨[], 0⟩, 300⟩ : TxInput).amount - (⟨0, 0, 200⟩ : TransactionCosts).total)] :=
  (C2_change_output [0] ⟨0, 0, 200⟩ "chg" [⟨5, Script.payToAddress "rcpt"⟩] ⟨⟨[], 0⟩, 300⟩
    (by decide)).1 (by norm_num)

/-- C3 witness: a concrete build carries exactly one OP_RETURN output, last. -/
theorem C3_witness :
    commitment_outputs
      (create_trx [3, 4] ⟨0, 0, 200⟩ "chg" [⟨5, Script.payToAddress "rcpt"⟩] ⟨⟨[], 0⟩, 300⟩).vout =
      [⟨0, Script.opReturn [3, 4]⟩] ∧
    (create_trx [3, 4] ⟨0, 0, 200⟩ "chg" [⟨5, Script.payToAddress "rcpt"⟩]
      ⟨⟨[], 0⟩, 300⟩).vout.getLast? = some ⟨0, Script.opReturn [3, 4]⟩ :=
  C3_commitment_output [3, 4] ⟨0, 0, 200⟩ "chg" [⟨5, Script.payToAddress "rcpt"⟩] ⟨⟨[], 0⟩, 300⟩
    (by decide)

/-! ## Claim C10 -/

/-- C10: the worst-case output count used for cost estimation is exactly
`2 * n + 2` for `n` certificates. -/
theorem C10_num_outputs (num_certificates : ℤ) :
    Issuer.get_num_outputs num_certificates = 2 * num_certificates + 2 := by
  simp [Issuer.get_num_outputs, OUTPUTS_PER_CERTIFICATE]

/-! ## Claim C5 -/

/-- C5: on the no-op/failure-tolerant broadcast path `send_tx` itself logs a
warning and returns no identifier, but the orchestrator's subsequent
unconditional `bytes(txid, 'utf-8')` write of the sent-transaction file raises
`TypeError`, aborting the pipeline rather than continuing; when the broadcaster
does return an identifier, that identifier is persisted to the sent-tx file. -/
theorem C5_sent_file_persistence :
    send_tx noop_broadcast "deadbeef" = (none, LogLevel.warning) ∧
    record_sent_tx noop_broadcast "deadbeef" "sent_file" = Except.error PyError.typeError ∧
    record_sent_tx (fun _ => some "txid0") "deadbeef" "sent_file" =
      Except.ok ("sent_file", "txid0") :=
  ⟨rfl, rfl, rfl⟩

/-! ## Claim C6 -/

/-- C6 (counterexample): the Orchestrator emits no connectivity or
key-presence check events of its own — the checks occur inside `sign_tx`'s own
trace because the `internet_off_for_scope` decorator is attached to the Signer
— and with `skip_wifi_check` configured a signing invocation performs no
verification that the internet is off at all. -/
theorem C6_counterexample :
    orchestrator_own_check_events = [] ∧
    SigEvent.verifyInternetOffAndKeyPresent ∈ sign_tx_trace false ∧
    SigEvent.verifyInternetOffAndKeyPresent ∉ sign_tx_trace true := by
  refine ⟨rfl, ?_, ?_⟩ <;> decide

/-- C6 (amended): when the wifi check is not configured to be skipped, a
signing invocation verifies the internet absent and the key source present
before the private key is read, and checks connectivity restoration only after
signing completes; this enforcement is performed by the
`internet_off_for_scope` decorator wrapped around the Signer (`sign_tx`)
itself — the Orchestrator adds no checks of its own and simply invokes the
decorated Signer. -/
theorem C6_airgap_order (skip_wifi_check : Bool) (h : skip_wifi_check = false) :
    sign_tx_trace skip_wifi_check =
      [SigEvent.verifyInternetOffAndKeyPresent, SigEvent.readPrivateKey,
       SigEvent.signTransaction, SigEvent.verifyInternetOnAndKeyAbsent] ∧
    orchestrator_sign_step_trace skip_wifi_check = sign_tx_trace skip_wifi_check ∧
    orchestrator_own_check_events = [] := by
  subst h
  exact ⟨rfl, rfl, rfl⟩

/-- C6 witness: the amended theorem at the non-skipping configuration. -/
theorem C6_witness :
    sign_tx_trace false =
      [SigEvent.verifyInternetOffAndKeyPresent, SigEvent.readPrivateKey,
       SigEvent.signTransaction, SigEvent.verifyInternetOnAndKeyAbsent] ∧
    orchestrator_sign_step_trace false = sign_tx_trace false ∧
    orchestrator_own_check_events = [] :=
  C6_airgap_order false rfl

/-! ## Claim C7 -/

/-- C7: the connector factory returns the `BitcoindConnector` variant for
`"bitcoind"` and the `BlockchainInfoConnector` variant for
`"blockchain.info"`, raising `UnrecognizedConnectorError` for every other
string; the broadcaster factory likewise raises `UnrecognizedConnectorError`
for every string outside its four recognized discriminators, never silently
defaulting. -/
theorem C7_factory_dispatch :
    create_wallet_connector "bitcoind" = Except.ok WalletConnectorKind.BitcoindConnector ∧
    create_wallet_connector "blockchain.info" =
      Except.ok WalletConnectorKind.BlockchainInfoConnector ∧
    (∀ s : String, s ≠ "bitcoind" → s ≠ "blockchain.info" →
      create_wallet_connector s =
        Except.error (ConnectorsError.UnrecognizedConnectorError
          ("unrecognized wallet connector: " ++ s))) ∧
    (∀ s : String, s ≠ "btc.blockr.io" → s ≠ "insight.bitpay.com" → s ≠ "bitcoind" →
      s ≠ "noop" →
      create_broadcast_function s =
        Except.error (ConnectorsError.UnrecognizedConnectorError
          ("unrecognized broadcaster: " ++ s))) := by
  refine ⟨rfl, rfl, ?_, ?_⟩
  · intro s h1 h2
    simp [create_wallet_connector, h1, h2]
  · intro s h1 h2 h3 h4
    simp [create_broadcast_function, h1, h2, h3, h4]

/-- C7 witness: both factories reject a concrete unrecognized discriminator. -/
theorem C7_witness :
    create_wallet_connector "other" =
      Except.error (ConnectorsError.UnrecognizedConnectorError
        ("unrecognized wallet connector: " ++ "other")) ∧
    create_broadcast_function "other" =
      Except.error (ConnectorsError.UnrecognizedConnectorError
        ("unrecognized broadcaster: " ++ "other")) :=
  ⟨C7_factory_dispatch.2.2.1 "other" (by decide) (by decide),
   C7_factory_dispatch.2.2.2 "other" (by decide) (by decide) (by decide) (by decide)⟩


/-! ## Claim C8 -/

/-- Evaluation of the three fields of `get_cost`, by unfolding. -/
theorem get_cost_eval (r d s : ℚ) (n : ℤ) :
    (get_cost r d s n).min_per_output = d * COIN ∧
    (get_cost r d s n).fee =
      max (s * ((calculate_raw_tx_size 1 n : ℤ) : ℚ)) (r * COIN) ∧
    (get_cost r d s n).total = d * COIN * (n : ℚ) + (get_cost r d s n).fee :=
  ⟨rfl, rfl, rfl⟩

/-- A quotient `m / 2 ^ E` with small numerator is a binary64 value. -/
theorem isDouble_div_pow (m : ℤ) (E : ℕ) (h : m.natAbs < 2 ^ 53) :
    isDouble ((m : ℚ) / 2 ^ E) := by
  refine ⟨m, -(E : ℤ), h, ?_⟩
  rw [zpow_neg, zpow_natCast, div_eq_mul_inv]

/-- Any binary64 value lying above a bound `lo ≥ 2 ^ 53 / 2 ^ (E + 1)` is an
integer multiple of `2 ^ (-E)`: values on a finer grid have exponent at most
`-(E+1)` and significand below `2 ^ 53`, hence magnitude below the bound. -/
theorem isDouble_grid (d : ℚ) (hd : isDouble d) (E : ℕ) (lo : ℚ)
    (hlo : lo ≤ d) (hbound : (2 : ℚ) ^ 53 / 2 ^ (E + 1) ≤ lo) :
    ∃ k : ℤ, d = (k : ℚ) / 2 ^ E := by
  rcases hd with ⟨m, e, hm, rfl⟩
  rcases le_or_lt (-(E : ℤ)) e with he | he
  · refine ⟨m * 2 ^ (e + E).toNat, ?_⟩
    have ht : ((e + E).toNat : ℤ) = e + E := Int.toNat_of_nonneg (by omega)
    push_cast
    rw [eq_div_iff (by positivity : ((2 : ℚ) ^ E) ≠ 0), mul_assoc]
    congr 1
    rw [← zpow_natCast (2 : ℚ) ((e + E).toNat), ht, ← zpow_natCast (2 : ℚ) E,
      ← zpow_add₀ (by norm_num : (2 : ℚ) ≠ 0)]
  · exfalso
    have hpos : (0 : ℚ) < 2 ^ e := zpow_pos (by norm_num) e
    have hm' : |(m : ℚ)| < 2 ^ 53 := by
      have h1 : ((m.natAbs : ℕ) : ℚ) < ((2 ^ 53 : ℕ) : ℚ) := by exact_mod_cast hm
      rw [Int.cast_natAbs, Int.cast_abs] at h1
      calc |(m : ℚ)| < ((2 ^ 53 : ℕ) : ℚ) := h1
        _ = 2 ^ 53 := by push_cast; ring
    have hee : (2 : ℚ) ^ e ≤ 2 ^ (-(E : ℤ) - 1) :=
      zpow_le_zpow_right₀ (by norm_num) (by omega)
    have h1 : (m : ℚ) * 2 ^ e < 2 ^ 53 * 2 ^ (-(E : ℤ) - 1) :=
      calc (m : ℚ) * 2 ^ e ≤ |(m : ℚ)| * 2 ^ e :=
            mul_le_mul_of_nonneg_right (le_abs_self _) hpos.le
        _ < 2 ^ 53 * 2 ^ e := mul_lt_mul_of_pos_right hm' hpos
        _ ≤ 2 ^ 53 * 2 ^ (-(E : ℤ) - 1) :=
            mul_le_mul_of_nonneg_left hee (by positivity)
    have h2 : (2 : ℚ) ^ 53 * 2 ^ (-(E : ℤ) - 1) = 2 ^ 53 / 2 ^ (E + 1) := by
      have h3 : (-(E : ℤ) - 1) = -((E + 1 : ℕ) : ℤ) := by push_cast; ring
      rw [h3, zpow_neg, zpow_natCast, div_eq_mul_inv]
    linarith

/-- Every binary64 value at least as close to `1 / 100000` (the exact value of
the decimal literal `0.00001`) as `5902958103587057 / 2 ^ 69` is that value:
it is the unique nearest double, hence the machine number Python stores for
the spec's dust floor. -/
theorem nearest_double_dust (d : ℚ) (hd : isDouble d)
    (hnear : |1 / 100000 - d| ≤ |1 / 100000 - 5902958103587057 / 2 ^ 69|) :
    d = 5902958103587057 / 2 ^ 69 := by
  have hδ : |1 / 100000 - (5902958103587057 / 2 ^ 69 : ℚ)| =
      1509 / 1844674407370955161600000 := by
    rw [abs_of_nonpos (by norm_num)]
    norm_num
  rw [hδ] at hnear
  rcases abs_le.1 hnear with ⟨h1, h2⟩
  have hlo : (1 / 100000 : ℚ) - 1509 / 1844674407370955161600000 ≤ d := by linarith
  have hhi : d ≤ (1 / 100000 : ℚ) + 1509 / 1844674407370955161600000 := by linarith
  obtain ⟨k, rfl⟩ := isDouble_grid d hd 69
    ((1 / 100000 : ℚ) - 1509 / 1844674407370955161600000) hlo (by norm_num)
  have hp : ((2 : ℚ) ^ 69) = 590295810358705651712 := by norm_num
  rw [hp] at hlo hhi ⊢
  have hk_hi : (k : ℚ) ≤ 5902958103587057 := by linarith
  have hk_lo : (5902958103587056 : ℚ) < (k : ℚ) := by linarith
  have hk1 : k ≤ 5902958103587057 := by exact_mod_cast hk_hi
  have hk2 : 5902958103587056 < k := by exact_mod_cast hk_lo
  have hk : k = 5902958103587057 := by omega
  rw [hk]
  norm_num

/-- Every binary64 value at least as close to the exact product
`(5902958103587057 / 2 ^ 69) * 100000000` as `8796093022208001 / 2 ^ 43` is
that value: it is the unique nearest double, hence the result Python returns
for the float multiplication `0.00001 * 100000000`. -/
theorem nearest_double_dust_times_coin (p : ℚ) (hp : isDouble p)
    (hnear : |5902958103587057 / 2 ^ 69 * 100000000 - p| ≤
      |5902958103587057 / 2 ^ 69 * 100000000 - 8796093022208001 / 2 ^ 43|) :
    p = 8796093022208001 / 2 ^ 43 := by
  have hδ : |5902958103587057 / 2 ^ 69 * 100000000 - (8796093022208001 / 2 ^ 43 : ℚ)| =
      73519 / 2305843009213693952 := by
    rw [abs_of_nonpos (by norm_num)]
    norm_num
  rw [hδ] at hnear
  rcases abs_le.1 hnear with ⟨h1, h2⟩
  have hlo : (5902958103587057 / 2 ^ 69 * 100000000 : ℚ) - 73519 / 2305843009213693952 ≤ p := by
    linarith
  have hhi : p ≤ (5902958103587057 / 2 ^ 69 * 100000000 : ℚ) + 73519 / 2305843009213693952 := by
    linarith
  obtain ⟨k, rfl⟩ := isDouble_grid p hp 43
    ((5902958103587057 / 2 ^ 69 * 100000000 : ℚ) - 73519 / 2305843009213693952) hlo (by norm_num)
  have hp43 : ((2 : ℚ) ^ 43) = 8796093022208 := by norm_num
  have hp69 : ((2 : ℚ) ^ 69) = 590295810358705651712 := by norm_num
  rw [hp43] at hlo hhi ⊢
  rw [hp69] at hlo hhi
  have hk_hi : (k : ℚ) ≤ 8796093022208001 := by linarith
  have hk_lo : (8796093022208000 : ℚ) < (k : ℚ) := by linarith
  have hk1 : k ≤ 8796093022208001 := by exact_mod_cast hk_hi
  have hk2 : 8796093022208000 < k := by exact_mod_cast hk_lo
  have hk : k = 8796093022208001 := by omega
  rw [hk]
  norm_num

/-- `5902958103587057 / 2 ^ 69` is a nearest binary64 value to `1 / 100000`:
the machine value of the literal `0.00001`. -/
theorem dust_literal_rounds : roundsToNearest (1 / 100000) (5902958103587057 / 2 ^ 69) := by
  refine ⟨isDouble_div_pow 5902958103587057 69 (by norm_num), ?_⟩
  intro s hs
  by_contra hlt
  push_neg at hlt
  have hs' := nearest_double_dust s hs hlt.le
  rw [hs'] at hlt
  exact lt_irrefl _ hlt

/-- `8796093022208001 / 2 ^ 43` is a nearest binary64 value to the exact
product of the machine dust threshold with `COIN`: the value Python returns
for `0.00001 * 100000000`. -/
theorem dust_times_coin_rounds :
    roundsToNearest (5902958103587057 / 2 ^ 69 * 100000000) (8796093022208001 / 2 ^ 43) := by
  refine ⟨isDouble_div_pow 8796093022208001 43 (by norm_num), ?_⟩
  intro s hs
  by_contra hlt
  push_neg at hlt
  have hs' := nearest_double_dust_times_coin s hs hlt.le
  rw [hs'] at hlt
  exact lt_irrefl _ hlt

/-- C8: the cost computation is NOT integer arithmetic at the documented
parameters. Python's binary64 floats cannot represent the whole-coin dust
floor `0.00001` at all: every machine double differs from `1 / 100000`, the
stored value is exactly `5902958103587057 / 2 ^ 69`, and the float conversion
`dust_threshold * COIN` (trx_utils.py line 119) rounds to exactly
`8796093022208001 / 2 ^ 43` (= `1000.0000000000001`), which is neither `1000`
nor any integer of smallest units; even with exact multiplication,
`get_cost` at the machine parameter yields a `min_per_output` and `total`
that are not exact integers. -/
theorem C8_float_conversion_bug :
    (∀ d : ℚ, isDouble d → d ≠ 1 / 100000) ∧
    (∀ d : ℚ, roundsToNearest (1 / 100000) d → d = 5902958103587057 / 2 ^ 69) ∧
    (∀ p : ℚ, roundsToNearest (5902958103587057 / 2 ^ 69 * 100000000) p →
      p = 8796093022208001 / 2 ^ 43) ∧
    (8796093022208001 / 2 ^ 43 : ℚ) ≠ 1000 ∧
    ¬ isIntegral (8796093022208001 / 2 ^ 43 : ℚ) ∧
    (get_cost (1 / 10000) (5902958103587057 / 2 ^ 69) 50 4).min_per_output =
      5902958103587057 / 2 ^ 69 * 100000000 ∧
    ¬ isIntegral ((get_cost (1 / 10000) (5902958103587057 / 2 ^ 69) 50 4).min_per_output) ∧
    ¬ isIntegral ((get_cost (1 / 10000) (5902958103587057 / 2 ^ 69) 50 4).total) := by
  refine ⟨?_, ?_, ?_, by norm_num, ?_, rfl, ?_, ?_⟩
  · rintro d ⟨m, e, hm, rfl⟩ heq
    rcases le_or_lt 0 e with he | he
    · lift e to ℕ using he
      rw [zpow_natCast] at heq
      have hZ : ((100000 * (m * 2 ^ e) : ℤ) : ℚ) = 1 := by push_cast; linarith
      have hZ' : (100000 * (m * 2 ^ e) : ℤ) = 1 := by exact_mod_cast hZ
      have hdvd : (100000 : ℤ) ∣ 1 := ⟨m * 2 ^ e, hZ'.symm⟩
      have := Int.le_of_dvd one_pos hdvd
      norm_num at this
    · have hn : e = -(((-e).toNat : ℕ) : ℤ) := by
        rw [Int.toNat_of_nonneg (by omega)]; ring
      rw [hn, zpow_neg, zpow_natCast] at heq
      have h2pos : (0 : ℚ) < 2 ^ ((-e).toNat) := by positivity
      have hq : ((100000 * m : ℤ) : ℚ) = ((2 ^ ((-e).toNat) : ℤ) : ℚ) := by
        push_cast
        field_simp at heq
        linarith
      have hZ : (100000 * m : ℤ) = 2 ^ ((-e).toNat) := by exact_mod_cast hq
      have hdvd5 : (5 : ℤ) ∣ 2 ^ ((-e).toNat) := ⟨20000 * m, by linarith⟩
      have h5 : (5 : ℤ) ∣ 2 := (by norm_num : Prime (5 : ℤ)).dvd_of_dvd_pow hdvd5
      norm_num at h5
  · rintro d ⟨hdbl, hmin⟩
    exact nearest_double_dust d hdbl
      (hmin _ (isDouble_div_pow 5902958103587057 69 (by norm_num)))
  · rintro p ⟨hdbl, hmin⟩
    exact nearest_double_dust_times_coin p hdbl
      (hmin _ (isDouble_div_pow 8796093022208001 43 (by norm_num)))
  · rintro ⟨z, hz⟩
    rw [div_eq_iff (by positivity : ((2 : ℚ) ^ 43) ≠ 0)] at hz
    have hZ : (8796093022208001 : ℤ) = z * 2 ^ 43 := by exact_mod_cast hz
    have h43 : (2 : ℤ) ^ 43 = 8796093022208 := by norm_num
    rw [h43] at hZ
    omega
  · rintro ⟨z, hz⟩
    have hmin : (get_cost (1 / 10000) (5902958103587057 / 2 ^ 69) 50 4).min_per_output =
        (5902958103587057 / 2 ^ 69 : ℚ) * 100000000 := rfl
    rw [hmin] at hz
    have hz' : ((5902958103587057 * 100000000 : ℤ) : ℚ) = (z : ℚ) * 2 ^ 69 := by
      push_cast
      rw [div_mul_eq_mul_div, div_eq_iff (by positivity : ((2 : ℚ) ^ 69) ≠ 0)] at hz
      linarith
    have hZ : (5902958103587057 * 100000000 : ℤ) = z * 2 ^ 69 := by exact_mod_cast hz'
    have hdvd : (2 ^ 69 : ℤ) ∣ 590295810358705700000000 := ⟨z, by linarith⟩
    norm_num at hdvd
  · rintro ⟨z, hz⟩
    have hfee : (get_cost (1 / 10000) ((5902958103587057 : ℚ) / 2 ^ 69) 50 4).fee = 14750 := by
      rw [(get_cost_eval (1 / 10000) ((5902958103587057 : ℚ) / 2 ^ 69) 50 4).2.1]
      rw [max_eq_left]
      · norm_num [calculate_raw_tx_size, BYTES_PER_INPUT, BYTES_PER_OUTPUT, FIXED_EXTRA_BYTES]
      · norm_num [calculate_raw_tx_size, BYTES_PER_INPUT, BYTES_PER_OUTPUT, FIXED_EXTRA_BYTES,
          COIN]
    rw [(get_cost_eval (1 / 10000) ((5902958103587057 : ℚ) / 2 ^ 69) 50 4).2.2, hfee] at hz
    have hz2 : (5902958103587057 / 2 ^ 69 : ℚ) * COIN * ((4 : ℤ) : ℚ) =
        (5902958103587057 * 400000000 : ℚ) / 2 ^ 69 := by
      rw [COIN]
      push_cast
      ring
    rw [hz2] at hz
    have h1 : (5902958103587057 * 400000000 : ℚ) / 2 ^ 69 = (z : ℚ) - 14750 := by linarith
    rw [div_eq_iff (by positivity : ((2 : ℚ) ^ 69) ≠ 0)] at h1
    have hZ : (5902958103587057 * 400000000 : ℤ) = (z - 14750) * 2 ^ 69 := by exact_mod_cast h1
    have hK : (5902958103587057 * 400000000 : ℤ) = 2361183241434822800000000 := by norm_num
    have h69 : (2 : ℤ) ^ 69 = 590295810358705651712 := by norm_num
    rw [hK, h69] at hZ
    omega

/-- C8 witness: the theorem applied at the concrete machine values — the
stored dust literal `5902958103587057 / 2 ^ 69` (a double, hence distinct from
`1 / 100000`) and the rounded conversion `8796093022208001 / 2 ^ 43`. -/
theorem C8_float_witness :
    (5902958103587057 / 2 ^ 69 : ℚ) ≠ 1 / 100000 ∧
    (5902958103587057 / 2 ^ 69 : ℚ) = 5902958103587057 / 2 ^ 69 ∧
    (8796093022208001 / 2 ^ 43 : ℚ) = 8796093022208001 / 2 ^ 43 :=
  ⟨C8_float_conversion_bug.1 (5902958103587057 / 2 ^ 69)
      (isDouble_div_pow 5902958103587057 69 (by norm_num)),
   C8_float_conversion_bug.2.1 (5902958103587057 / 2 ^ 69) dust_literal_rounds,
   C8_float_conversion_bug.2.2.1 (8796093022208001 / 2 ^ 43) dust_times_coin_rounds⟩
